import Mathlib

/-!
Verification of the gameplay-coordination layer of the `creative-bevy`
rolling-ball game (`src/bin/ballance.rs` and the plugins under
`src/plugins/`), shallowly embedded in Lean.

Positions, velocities and angles are embedded as rationals (`ℚ`): every
claim under study is about control flow, ordering and exact resets, never
about floating-point rounding.  Bevy entities are embedded as naturals,
ECS component writes as explicit command lists or state-record updates,
and per-tick Bevy `EventReader` queues as explicit lists threaded through
the tick functions (an early `return` inside a `for ev in reader.read()`
loop leaves the remaining events unread, so they are seen again on the
next tick; this cursor behaviour is modelled by returning the unread
suffix).
-/

namespace CreativeBevy

/-- The variants of Bevy's `AssetEvent<Scene>` that the systems match on. -/
inductive SceneEvent where
  | added
  | modified
  | removed
  | unused
  | loadedWithDeps
  deriving DecidableEq, Repr

/--
The event-drain loop at the top of `insert_physics`
(`src/bin/ballance.rs:186-191`):

```
for event in scene_events.read() {
    let AssetEvent::LoadedWithDependencies { id: _ } = event else {
        *should_run = true;
        return;
    };
}
```

A `LoadedWithDependencies` event lets the loop continue; any other event
makes the system set `should_run = true` and return immediately, leaving
the remaining events unread.  `none` means the loop ran to completion;
`some rest` means the system returned early with `rest` still unread.
-/
def drainInsertPhysics : List SceneEvent → Option (List SceneEvent)
  | [] => none
  | e :: rest =>
    match e with
    | .loadedWithDeps => drainInsertPhysics rest
    | _ => some rest

/--
One `Update`-schedule tick of the `insert_physics` gating logic
(`src/bin/ballance.rs:178-235`).  State is the `Local<bool>` `should_run`
plus the unread suffix of the event queue; the returned `Bool` records
whether the collider-attachment pass (the body after the
`if !*should_run { return; }` check) ran this tick.
-/
def insertPhysicsTick (shouldRun : Bool) (pending newEvents : List SceneEvent) :
    Bool × List SceneEvent × Bool :=
  match drainInsertPhysics (pending ++ newEvents) with
  | some rest => (true, rest, false)
  | none => if shouldRun then (false, [], true) else (false, [], false)

/--
Run `insert_physics` over a sequence of per-tick event batches, counting
how many ticks executed the collider-attachment pass.
-/
def runInsertPhysics : Bool → List SceneEvent → List (List SceneEvent) → Nat
  | _, _, [] => 0
  | shouldRun, pending, evs :: rest =>
    let (sr, pend, ran) := insertPhysicsTick shouldRun pending evs
    (if ran then 1 else 0) + runInsertPhysics sr pend rest

/--
The event-drain loop at the top of `detect_out_of_bounds`
(`src/bin/ballance.rs:395-407`): a `Modified` event clears `should_run`,
a `LoadedWithDependencies` event sets it, every other variant is skipped
(`continue`); the loop never returns early, so the queue is fully drained.
-/
def drainDetectOutOfBounds (shouldRun : Bool) : List SceneEvent → Bool
  | [] => shouldRun
  | e :: rest =>
    match e with
    | .modified => drainDetectOutOfBounds false rest
    | .loadedWithDeps => drainDetectOutOfBounds true rest
    | _ => drainDetectOutOfBounds shouldRun rest

/--
The per-ball body of `detect_out_of_bounds` (`src/bin/ballance.rs:422-450`):
a ball whose Y translation is strictly below the `bottom` node's Y
translation, while `is_in_bounds` still holds, has its flag cleared and
triggers exactly one fall banner plus one fall sound.  The returned `Bool`
records whether the banner/sound pair was spawned on this tick.
-/
def detectStep (bottomY y : ℚ) (isInBounds : Bool) : Bool × Bool :=
  if y < bottomY ∧ isInBounds then (false, true) else (isInBounds, false)

/--
Run the bounds monitor over a trace of per-tick ball Y positions (the
monitor active: scene loaded and `bottom` node present), returning for
each tick whether the fall banner/sound pair was spawned on that tick.
-/
def detectTrace (bottomY : ℚ) : Bool → List ℚ → List Bool
  | _, [] => []
  | isInBounds, y :: ys =>
    let (flag, fired) := detectStep bottomY y isInBounds
    fired :: detectTrace bottomY flag ys

/-- Final `is_in_bounds` value after running the bounds monitor over a trace. -/
def detectFinalFlag (bottomY : ℚ) : Bool → List ℚ → Bool
  | isInBounds, [] => isInBounds
  | isInBounds, y :: ys => detectFinalFlag bottomY (detectStep bottomY y isInBounds).1 ys

/-- A Rapier `CollisionEvent`, naming the two colliding entities. -/
inductive CollisionEv where
  | started (a b : Nat)
  | stopped (a b : Nat)
  deriving DecidableEq, Repr

/--
The `detect_goal` system (`src/bin/ballance.rs:262-295`): for each
`CollisionEvent::Started(entity, _, _)` in the queue it tests — only the
FIRST of the two named entities — against `Query<(), With<Goal>>`; on a
hit it spawns one one-shot win sound and one "You Win!" banner.  Returns
the number of (sound, banner) pairs spawned while draining the queue.
-/
def detectGoalWins (isGoal : Nat → Bool) : List CollisionEv → Nat
  | [] => 0
  | e :: rest =>
    match e with
    | .started a _ => (if isGoal a then 1 else 0) + detectGoalWins isGoal rest
    | .stopped _ _ => detectGoalWins isGoal rest

/-- A scene-graph node as seen by `Query<(&ChildOf, &Name, &Mesh3d)>`:
only nodes that have a parent, a name and a mesh are matched, so the
parent link is kept total here and mesh presence is an explicit flag. -/
structure Node where
  id : Nat
  parent : Nat
  name : String
  hasMesh : Bool
  deriving DecidableEq, Repr

/-- Char-level embedding of Rust's `str::starts_with`: does the first
list begin with the second? -/
def charsStartWith : List Char → List Char → Bool
  | _, [] => true
  | [], _ :: _ => false
  | c :: s, p :: ps => c == p && charsStartWith s ps

/-- `name.starts_with(pat)` on Bevy `Name` contents. -/
def nameStartsWith (s pat : String) : Bool := charsStartWith s.data pat.data

/-- A physics-body attachment command issued to an entity. -/
inductive BodyCmd where
  | solid (restitution : ℚ)
  | sensorGoal
  deriving DecidableEq, Repr

/--
The collider-attachment pass of `insert_physics`
(`src/bin/ballance.rs:197-215`): every queried node whose name starts
with `collider_` makes its PARENT receive `RigidBody::Fixed`, a mesh
collider and `Restitution::new(0.8)`.
-/
def insertPhysicsCmds (scene : List Node) : List (Nat × BodyCmd) :=
  (scene.filter fun n => n.hasMesh && nameStartsWith n.name "collider_").map
    fun n => (n.parent, BodyCmd.solid (8 / 10))

/--
The `insert_goal` pass (`src/bin/ballance.rs:249-259`): every queried node
whose name starts with `goal_` makes its PARENT receive the `Goal` tag, a
mesh collider and `Sensor`.
-/
def insertGoalCmds (scene : List Node) : List (Nat × BodyCmd) :=
  (scene.filter fun n => n.hasMesh && nameStartsWith n.name "goal_").map
    fun n => (n.parent, BodyCmd.sensorGoal)

/-- World-space vectors, embedded as rational triples. -/
abbrev Vec3 := ℚ × ℚ × ℚ

/--
Fold of the mouse-motion loop in `update_camera`
(`src/plugins/third_person_camera_plugin.rs:45-48`): each delta is
subtracted from yaw/pitch after scaling.
-/
def applyDeltas (scale : ℚ) : ℚ × ℚ → List (ℚ × ℚ) → ℚ × ℚ
  | yp, [] => yp
  | (yaw, pitch), d :: ds => applyDeltas scale (yaw - scale * d.1, pitch - scale * d.2) ds

/-- Rust `f32::clamp(lo, hi)` on rationals: `min (max x lo) hi`. -/
def clampQ (lo hi x : ℚ) : ℚ := min (max x lo) hi

/--
The yaw/pitch update of one camera in `update_camera`
(`src/plugins/third_person_camera_plugin.rs:36-53`).  `captured` is
`window.cursor_options.grab_mode != CursorGrabMode::None`.  The
`state.read()` drain sits INSIDE the `if captured` branch, so when the
cursor is not captured the mouse-motion queue is left unread (it stays
pending for the reader).  Pitch is clamped to `[-1.54, 1.54]`
unconditionally; yaw is not clamped.  Returns ((yaw, pitch), unread queue).
-/
def updateCameraTick (sensitivity windowScale : ℚ) (captured : Bool)
    (yaw pitch : ℚ) (queue : List (ℚ × ℚ)) : (ℚ × ℚ) × List (ℚ × ℚ) :=
  let raw := if captured then applyDeltas (sensitivity * windowScale) (yaw, pitch) queue
             else (yaw, pitch)
  let rest := if captured then [] else queue
  ((raw.1, clampQ (-(154 / 100)) (154 / 100) raw.2), rest)

/-- Camera orientation basis, by its `forward()` and `left()` vectors;
`right()` and `back()` are their negations, as on a Bevy `Transform`. -/
structure CamBasis where
  fwd : Vec3
  leftv : Vec3
  deriving DecidableEq, Repr

/-- Currently held movement keys. -/
structure Keys where
  w : Bool
  s : Bool
  a : Bool
  d : Bool
  deriving DecidableEq, Repr

/--
The `control_ball` system (`src/bin/ballance.rs:304-333`).  If the
`ThirdPersonCamera` query does not yield exactly one camera (`cam = none`)
the system returns before touching any ball, leaving the previous torque
in place.  Otherwise the pressed keys' camera-basis contributions are
summed (W adds `left()`, S adds `right()`, A adds `back()`, D adds
`forward()`) and `external_force.torque` is OVERWRITTEN with
`direction * force_scale`, `force_scale = 1`.
-/
def controlBall (cam : Option CamBasis) (k : Keys) (prevTorque : Vec3) : Vec3 :=
  match cam with
  | none => prevTorque
  | some c =>
    let direction : Vec3 := 0
    let direction := if k.w then direction + c.leftv else direction
    let direction := if k.s then direction + -c.leftv else direction
    let direction := if k.a then direction + -c.fwd else direction
    let direction := if k.d then direction + c.fwd else direction
    (1 : ℚ) • direction

/-- A Ball entity's mutable state touched by `restart`. -/
structure BallEnt where
  is_in_bounds : Bool
  pos : Vec3
  linvel : Vec3
  angvel : Vec3
  restartPos : Vec3
  deriving DecidableEq, Repr

/-- The world state `restart` reads and writes: every Ball, every `Text`
entity (id, contents) and a count of one-shot sounds spawned so far. -/
structure World where
  balls : List BallEnt
  texts : List (Nat × String)
  sounds : Nat
  deriving DecidableEq, Repr

/-- The exact contents of the fall banner's `Text`, "You Fall!\n". -/
def fallText : String := "You Fall!\n"

/-- Per-ball body of the `restart` loop (`src/bin/ballance.rs:516-521`). -/
def resetBall (b : BallEnt) : BallEnt :=
  { b with is_in_bounds := true, pos := b.restartPos, linvel := 0, angvel := 0 }

/-- `commands.entity(id).despawn()`: the entity with that id is removed. -/
def despawnText (id : Nat) (texts : List (Nat × String)) : List (Nat × String) :=
  texts.filter fun t => t.1 ≠ id

/--
The fall-banner cleanup at the end of `restart`
(`src/bin/ballance.rs:529-535`): `find?` the FIRST `Text` entity whose
contents are exactly "You Fall!\n" and despawn that one entity; if none
is found, do nothing.
-/
def despawnFirstFall (texts : List (Nat × String)) : List (Nat × String) :=
  match texts.find? (fun t => t.2 == fallText) with
  | some ft => despawnText ft.1 texts
  | none => texts

/--
The `restart` system (`src/bin/ballance.rs:504-536`): on an R-key press it
resets every ball (flag, pose, both velocities), spawns one one-shot
restart sound, and despawns the FIRST `Text` entity found whose contents
are exactly "You Fall!\n" (if any); nothing else is touched.
-/
def restartTick (pressed : Bool) (w : World) : World :=
  if pressed then
    { balls := w.balls.map resetBall
      texts := despawnFirstFall w.texts
      sounds := w.sounds + 1 }
  else w

/-- A Ball entity as seen by the ball pass of `insert_physics`:
its id, radius, and whether it already has a `Collider` component. -/
structure BallPhys where
  id : Nat
  radius : ℚ
  hasCollider : Bool
  deriving DecidableEq, Repr

/--
The ball pass of `insert_physics` (`src/bin/ballance.rs:218-231`): the
query is `Query<(Entity, &Ball), (With<Ball>, Without<Collider>)>`, so
only balls that do not yet have a collider are targeted; each such ball
receives the dynamic rigid body, a ball collider of its radius, external
force, damping, velocity and collision-event components.  Returns the ids
targeted.
-/
def ballInsertTargets (balls : List BallPhys) : List Nat :=
  (balls.filter fun b => !b.hasCollider).map fun b => b.id

/-- Applying the queued ball-pass insert commands: every targeted ball now
has a collider; balls that already had one are untouched. -/
def applyBallInsert (balls : List BallPhys) : List BallPhys :=
  balls.map fun b => if b.hasCollider then b else { b with hasCollider := true }

/-! ## Helper lemmas -/

theorem applyDeltas_fst (scale : ℚ) (ds : List (ℚ × ℚ)) :
    ∀ yp : ℚ × ℚ, (applyDeltas scale yp ds).1 = yp.1 - scale * (ds.map Prod.fst).sum := by
  induction ds with
  | nil => rintro ⟨y, p⟩; simp [applyDeltas]
  | cons d ds ih =>
    rintro ⟨y, p⟩
    rw [applyDeltas, ih]
    simp
    ring

theorem clampQ_mem (x : ℚ) :
    -(154 / 100) ≤ clampQ (-(154 / 100)) (154 / 100) x ∧
      clampQ (-(154 / 100)) (154 / 100) x ≤ 154 / 100 := by
  constructor
  · exact le_min (le_max_right _ _) (by norm_num)
  · exact min_le_right _ _

/-! ## Claim theorems -/

/--
C1: the claim says the collider-attachment pass of `insert_physics` runs
exactly once per distinct fully-loaded event — never zero times, never
more than once before the next reload signal — on the tick after the
fully-loaded event was observed.  The code keys its one-tick deferral on
the WRONG event variant: the `let AssetEvent::LoadedWithDependencies ...
else { *should_run = true; return; }` loop schedules the pass when it
sees any event OTHER than `LoadedWithDependencies`, and a
`LoadedWithDependencies` event schedules nothing.  Evaluated here: a
load-lifecycle trace whose only event is the fully-loaded one makes the
pass run ZERO times, while a trace whose only event is `Modified`
(reload begins, load never completes) makes it run ONCE.  This
contradicts the system's own doc comment ("It runs only once, one frame
after the scene is loaded").
-/
theorem C1_attachment_pass_gating :
    runInsertPhysics false [] [[SceneEvent.loadedWithDeps], [], []] = 0 ∧
    runInsertPhysics false [] [[SceneEvent.modified], [], []] = 1 := by
  decide

/--
C3 counterexample: the claim says a contact-begin event in which EITHER
of the two named bodies carries the Goal tag yields one win sound and one
banner.  `detect_goal` destructures `CollisionEvent::Started(entity, _, _)`
and tests only the FIRST entity: with the Goal tag on entity 1 and the
event `Started(0, 1)`, zero win banners are spawned, not one.
-/
theorem C3_goal_second_entity_missed :
    detectGoalWins (fun e => e == 1) [CollisionEv.started 0 1] = 0 := by
  decide

/--
C3 amended: for every contact-begin collision event whose FIRST named
body carries the Goal tag, the classifier plays one win sound and spawns
one "You Win!" banner — the number of (sound, banner) pairs spawned while
draining the queue equals the number of `Started` events whose first
entity is Goal-tagged.
-/
theorem C3_goal_first_entity_wins (isGoal : Nat → Bool) (events : List CollisionEv) :
    detectGoalWins isGoal events =
      events.countP fun e =>
        match e with
        | .started a _ => isGoal a
        | .stopped _ _ => false := by
  induction events with
  | nil => rfl
  | cons e rest ih =>
    cases e with
    | started a b =>
      by_cases h : isGoal a = true <;>
        simp [detectGoalWins, List.countP_cons, ih, h, Nat.add_comm]
    | stopped a b => simp [detectGoalWins, List.countP_cons, ih]

/--
C6: for every tick and every orbit camera, after `update_camera` the
pitch lies in `[-1.54, 1.54]` regardless of the cumulative mouse input,
while yaw is never clamped or normalised: the output yaw is exactly the
input yaw minus `sensitivity * min(height, width)` times the summed X
deltas (when the cursor is captured), or the unchanged input yaw (when it
is not).
-/
theorem C6_pitch_clamped_yaw_unconstrained (sens wscale : ℚ) (captured : Bool)
    (yaw pitch : ℚ) (queue : List (ℚ × ℚ)) :
    (-(154 / 100) ≤ ((updateCameraTick sens wscale captured yaw pitch queue).1).2 ∧
      ((updateCameraTick sens wscale captured yaw pitch queue).1).2 ≤ 154 / 100) ∧
    ((updateCameraTick sens wscale captured yaw pitch queue).1).1 =
      (if captured then yaw - sens * wscale * (queue.map Prod.fst).sum else yaw) := by
  refine ⟨⟨?_, ?_⟩, ?_⟩
  · simpa [updateCameraTick] using (clampQ_mem _).1
  · simpa [updateCameraTick] using (clampQ_mem _).2
  · cases captured <;> simp [updateCameraTick, applyDeltas_fst]

/--
C7: in the torque-based controller `control_ball`, the contributions of
all currently pressed movement keys sum into one camera-relative
direction (W adds `left()`, S adds `right()`, A adds `back()`, D adds
`forward()`); the resulting torque overwrites the previous tick's torque
(the output does not depend on it), so releasing all keys yields zero
torque; and when the orbit-camera query does not yield a camera the
system returns early and applies nothing (the previous torque stays).
-/
theorem C7_torque_sum_overwrites :
    (∀ (c : CamBasis) (k : Keys) (p q : Vec3),
        controlBall (some c) k p = controlBall (some c) k q) ∧
    (∀ (c : CamBasis) (k : Keys) (p : Vec3),
        controlBall (some c) k p =
          (if k.w then c.leftv else 0) + (if k.s then -c.leftv else 0) +
            (if k.a then -c.fwd else 0) + (if k.d then c.fwd else 0)) ∧
    (∀ (c : CamBasis) (p : Vec3), controlBall (some c) ⟨false, false, false, false⟩ p = 0) ∧
    (∀ (k : Keys) (p : Vec3), controlBall none k p = p) := by
  refine ⟨fun c k p q => rfl, ?_, ?_, fun k p => rfl⟩
  · intro c k p
    rcases k with ⟨kw, ks, ka, kd⟩
    cases kw <;> cases ks <;> cases ka <;> cases kd <;> simp [controlBall]
  · intro c p
    simp [controlBall]

/--
C8 counterexample: the claim says that on a tick where the cursor is not
captured the pending mouse-motion deltas are read but discarded, so the
event queue is drained either way.  In `update_camera` the
`state.read()` loop sits INSIDE the `if grab_mode != None` branch: with
the cursor free and one pending delta, the delta is still pending after
the tick — the queue is not drained.
-/
theorem C8_uncaptured_queue_not_drained :
    (updateCameraTick 1 1 false 0 0 [(1, 1)]).2 = [(1, 1)] := rfl

/--
C8 amended: on every tick in which the cursor is not captured, the orbit
camera does not read the pending mouse-motion deltas at all — they stay
in the reader's queue — and the orientation does not change from mouse
input: yaw is returned unchanged and pitch is only passed through the
unconditional `[-1.54, 1.54]` clamp.
-/
theorem C8_uncaptured_reads_nothing (sens wscale yaw pitch : ℚ)
    (queue : List (ℚ × ℚ)) :
    updateCameraTick sens wscale false yaw pitch queue =
      ((yaw, clampQ (-(154 / 100)) (154 / 100) pitch), queue) := by
  simp [updateCameraTick]

theorem applyBallInsert_hasCollider (balls : List BallPhys) :
    ∀ b ∈ applyBallInsert balls, b.hasCollider = true := by
  intro b hb
  simp only [applyBallInsert, List.mem_map] at hb
  obtain ⟨a, _, rfl⟩ := hb
  by_cases h : a.hasCollider <;> simp [h]

/--
C10: the ball pass of `insert_physics` queries
`(With<Ball>, Without<Collider>)`, so it targets only balls that do not
yet have a collider; after the pass every ball has one, a repeated run
(e.g. after a hot reload) targets nothing, a ball that already had its
physics components is left exactly as it was, and applying the pass
twice equals applying it once.
-/
theorem C10_ball_physics_insert_once :
    (∀ (balls : List BallPhys) (i : Nat), i ∈ ballInsertTargets balls →
        ∃ b, b ∈ balls ∧ b.id = i ∧ b.hasCollider = false) ∧
    (∀ balls : List BallPhys, ballInsertTargets (applyBallInsert balls) = []) ∧
    (∀ (balls : List BallPhys) (b : BallPhys), b ∈ balls → b.hasCollider = true →
        b ∈ applyBallInsert balls) ∧
    (∀ balls : List BallPhys, applyBallInsert (applyBallInsert balls) = applyBallInsert balls) := by
  refine ⟨?_, ?_, ?_, ?_⟩
  · intro balls i hi
    simp only [ballInsertTargets, List.mem_map, List.mem_filter] at hi
    obtain ⟨b, ⟨hb, hc⟩, rfl⟩ := hi
    exact ⟨b, hb, rfl, by simpa using hc⟩
  · intro balls
    have hnil : (applyBallInsert balls).filter (fun b => !b.hasCollider) = [] := by
      rw [List.filter_eq_nil_iff]
      intro a ha
      simp [applyBallInsert_hasCollider balls a ha]
    simp [ballInsertTargets, hnil]
  · intro balls b hb hc
    refine List.mem_map.2 ⟨b, hb, ?_⟩
    simp [hc]
  · intro balls
    induction balls with
    | nil => rfl
    | cons b bs ih =>
      simp only [applyBallInsert, List.map_cons] at ih ⊢
      by_cases h : b.hasCollider <;> simp [h, ih]

/--
C4: after the attachment passes, every queried scene node with the
`collider_` name prefix puts a solid body with restitution `0.8` on its
PARENT, every queried node with the `goal_` prefix puts a sensor collider
plus the Goal tag on its parent, and — provided no matched placeholder is
itself the parent of a matched placeholder — the matched node itself
receives no body from either pass.
-/
theorem C4_attachment_to_parents (scene : List Node) (n : Node)
    (hn : n ∈ scene) (hmesh : n.hasMesh = true)
    (hpure : ∀ m ∈ scene, m.hasMesh = true →
      (nameStartsWith m.name "collider_" = true ∨ nameStartsWith m.name "goal_" = true) →
      m.parent ≠ n.id) :
    (nameStartsWith n.name "collider_" = true →
      (n.parent, BodyCmd.solid (8 / 10)) ∈ insertPhysicsCmds scene) ∧
    (nameStartsWith n.name "goal_" = true →
      (n.parent, BodyCmd.sensorGoal) ∈ insertGoalCmds scene) ∧
    n.id ∉ (insertPhysicsCmds scene).map Prod.fst ∧
    n.id ∉ (insertGoalCmds scene).map Prod.fst := by
  refine ⟨?_, ?_, ?_, ?_⟩
  · intro hc
    exact List.mem_map_of_mem _ (List.mem_filter.2 ⟨hn, by simp [hmesh, hc]⟩)
  · intro hg
    exact List.mem_map_of_mem _ (List.mem_filter.2 ⟨hn, by simp [hmesh, hg]⟩)
  · intro hmem
    simp only [insertPhysicsCmds, List.map_map, List.mem_map, List.mem_filter,
      Function.comp, Bool.and_eq_true] at hmem
    obtain ⟨m, ⟨hm, hmm, hms⟩, hid⟩ := hmem
    exact hpure m hm hmm (Or.inl hms) hid
  · intro hmem
    simp only [insertGoalCmds, List.map_map, List.mem_map, List.mem_filter,
      Function.comp, Bool.and_eq_true] at hmem
    obtain ⟨m, ⟨hm, hmm, hms⟩, hid⟩ := hmem
    exact hpure m hm hmm (Or.inr hms) hid

/-- C4 witness: a concrete two-placeholder scene (a `collider_x` node
with parent `0`, a `goal_y` node with parent `3`), evaluated through
`C4_attachment_to_parents`. -/
theorem C4_attachment_witness :
    ((0 : Nat), BodyCmd.solid (8 / 10)) ∈
      insertPhysicsCmds [⟨1, 0, "collider_x", true⟩, ⟨2, 3, "goal_y", true⟩] ∧
    (1 : Nat) ∉
      (insertPhysicsCmds [⟨1, 0, "collider_x", true⟩, ⟨2, 3, "goal_y", true⟩]).map Prod.fst := by
  have h := C4_attachment_to_parents
    [⟨1, 0, "collider_x", true⟩, ⟨2, 3, "goal_y", true⟩]
    ⟨1, 0, "collider_x", true⟩ (by decide) (by decide) (by decide)
  exact ⟨h.1 (by decide), h.2.2.1⟩

theorem detectTrace_false (bottomY : ℚ) (ys : List ℚ) :
    detectTrace bottomY false ys = ys.map fun _ => false := by
  induction ys with
  | nil => rfl
  | cons y ys ih => simp [detectTrace, detectStep, ih]

theorem detectFinalFlag_false (bottomY : ℚ) (ys : List ℚ) :
    detectFinalFlag bottomY false ys = false := by
  induction ys with
  | nil => rfl
  | cons y ys ih => simp [detectFinalFlag, detectStep, ih]

theorem detectTrace_first_below (bottomY y : ℚ) (post : List ℚ) (hy : y < bottomY) :
    ∀ pre : List ℚ, (∀ z ∈ pre, ¬ z < bottomY) →
      detectTrace bottomY true (pre ++ y :: post) =
        (pre.map fun _ => false) ++ true :: (post.map fun _ => false) := by
  intro pre
  induction pre with
  | nil =>
    intro _
    simp [detectTrace, detectStep, hy, detectTrace_false]
  | cons z pre ih =>
    intro hpre
    have hz : ¬ z < bottomY := hpre z (List.mem_cons_self _ _)
    have ht := ih fun u hu => hpre u (List.mem_cons_of_mem _ hu)
    simp [detectTrace, detectStep, hz, ht]

theorem detectFinalFlag_below (bottomY y : ℚ) (post : List ℚ) (hy : y < bottomY) :
    ∀ pre : List ℚ, (∀ z ∈ pre, ¬ z < bottomY) →
      detectFinalFlag bottomY true (pre ++ y :: post) = false := by
  intro pre
  induction pre with
  | nil =>
    intro _
    simp [detectFinalFlag, detectStep, hy, detectFinalFlag_false]
  | cons z pre ih =>
    intro hpre
    have hz : ¬ z < bottomY := hpre z (List.mem_cons_self _ _)
    simp only [List.cons_append, detectFinalFlag, detectStep, hz, false_and, and_false,
      if_false]
    exact ih fun u hu => hpre u (List.mem_cons_of_mem _ hu)

/--
C2: with the bounds monitor active, a ball that starts in bounds and
whose Y trace stays at or above the `bottom` Y for some prefix of ticks,
then drops below it, spawns the fall banner/sound pair exactly on that
first below-threshold tick and never again — no matter how long it stays
below afterwards — because `is_in_bounds` is cleared on that tick and
debounces every later tick; the flag therefore transitions true→false at
most once between restarts, and `restart` always resets it to true for
every ball.
-/
theorem C2_fall_banner_debounced (bottomY y : ℚ) (pre post : List ℚ) (w : World)
    (hpre : ∀ z ∈ pre, ¬ z < bottomY) (hy : y < bottomY) :
    detectTrace bottomY true (pre ++ y :: post) =
      (pre.map fun _ => false) ++ true :: (post.map fun _ => false) ∧
    detectFinalFlag bottomY true (pre ++ y :: post) = false ∧
    ∀ b ∈ (restartTick true w).balls, b.is_in_bounds = true := by
  refine ⟨detectTrace_first_below bottomY y post hy pre hpre,
    detectFinalFlag_below bottomY y post hy pre hpre, ?_⟩
  intro b hb
  simp only [restartTick, if_true, List.mem_map] at hb
  obtain ⟨a, _, rfl⟩ := hb
  rfl

/-- C2 witness: `bottom` at Y `0`, ball trace `[1, -1, 2, -5]` — one tick
above, then below; the banner fires exactly on the second tick. -/
theorem C2_fall_banner_witness :
    ((-1 : ℚ) < 0) ∧
    detectTrace 0 true ([1] ++ (-1 : ℚ) :: [2, -5]) =
      (([1] : List ℚ).map fun _ => false) ++
        true :: (([2, -5] : List ℚ).map fun _ => false) := by
  refine ⟨by norm_num, ?_⟩
  refine (C2_fall_banner_debounced 0 (-1) [1] [2, -5] ⟨[], [], 0⟩ ?_ (by norm_num)).1
  intro z hz
  simp only [List.mem_singleton] at hz
  subst hz
  norm_num

theorem despawnFirstFall_cons_fall (t : Nat × String) (ts : List (Nat × String))
    (ht : t.2 = fallText) (hid : t.1 ∉ ts.map Prod.fst) :
    despawnFirstFall (t :: ts) = ts := by
  unfold despawnFirstFall
  rw [List.find?_cons_of_pos _ (by simp [ht])]
  have hkeep : ∀ a ∈ ts, (decide (a.1 ≠ t.1)) = true := by
    intro a ha
    simp only [decide_eq_true_eq]
    intro hEq
    exact hid (hEq ▸ List.mem_map_of_mem Prod.fst ha)
  show despawnText t.1 (t :: ts) = ts
  unfold despawnText
  rw [List.filter_cons, if_neg (by simp)]
  exact List.filter_eq_self.2 hkeep

theorem despawnFirstFall_cons_keep (t : Nat × String) (ts : List (Nat × String))
    (ht : ¬ t.2 = fallText) (hid : t.1 ∉ ts.map Prod.fst) :
    despawnFirstFall (t :: ts) = t :: despawnFirstFall ts := by
  unfold despawnFirstFall
  rw [List.find?_cons_of_neg _ (by simp [ht])]
  cases hf : ts.find? (fun x => x.2 == fallText) with
  | none => rfl
  | some ft =>
    have hmem : ft ∈ ts := List.mem_of_find?_eq_some hf
    have hne : t.1 ≠ ft.1 := fun h => hid (h ▸ List.mem_map_of_mem Prod.fst hmem)
    simp [despawnText, List.filter_cons, hne]

theorem despawnFirstFall_countP (texts : List (Nat × String))
    (hids : (texts.map Prod.fst).Nodup)
    (hcount : texts.countP (fun t => t.2 == fallText) ≤ 1) :
    (despawnFirstFall texts).countP (fun t => t.2 == fallText) = 0 := by
  induction texts with
  | nil => rfl
  | cons t ts ih =>
    rw [List.map_cons, List.nodup_cons] at hids
    by_cases ht : t.2 = fallText
    · rw [despawnFirstFall_cons_fall t ts ht hids.1]
      rw [List.countP_cons] at hcount
      simp only [ht, beq_self_eq_true, if_true] at hcount
      omega
    · rw [despawnFirstFall_cons_keep t ts ht hids.1, List.countP_cons]
      rw [List.countP_cons] at hcount
      simp only [ht, beq_iff_eq, if_false] at hcount ⊢
      simp only [ht, ite_false, add_zero]
      exact ih hids.2 (by omega)

theorem despawnFirstFall_keeps_nonfall (texts : List (Nat × String))
    (hids : (texts.map Prod.fst).Nodup) :
    ∀ t ∈ texts, ¬ t.2 = fallText → t ∈ despawnFirstFall texts := by
  induction texts with
  | nil => intro t ht; simp at ht
  | cons u ts ih =>
    rw [List.map_cons, List.nodup_cons] at hids
    intro t ht hnf
    by_cases hu : u.2 = fallText
    · rw [despawnFirstFall_cons_fall u ts hu hids.1]
      rcases List.mem_cons.1 ht with rfl | h
      · exact absurd hu hnf
      · exact h
    · rw [despawnFirstFall_cons_keep u ts hu hids.1]
      rcases List.mem_cons.1 ht with rfl | h
      · exact List.mem_cons_self _ _
      · exact List.mem_cons_of_mem _ (ih hids.2 t h hnf)

theorem despawnFirstFall_of_no_fall (texts : List (Nat × String))
    (h : texts.countP (fun t => t.2 == fallText) = 0) :
    despawnFirstFall texts = texts := by
  have hnone : texts.find? (fun t => t.2 == fallText) = none :=
    List.find?_eq_none.2 (List.countP_eq_zero.1 h)
  unfold despawnFirstFall
  rw [hnone]

/--
C5: on a restart key press, within that same tick, every ball's position
equals its recorded restart pose, both velocities are zero and
`is_in_bounds` is true; no fall banner remains (given the entity ids are
distinct and — as the debounce of C2 guarantees — at most one fall banner
existed); any non-fall banner, in particular a win banner, survives; and
a second press changes nothing beyond spawning one more restart sound.
-/
theorem C5_restart_resets_and_idempotent (w : World)
    (hids : (w.texts.map Prod.fst).Nodup)
    (hcount : w.texts.countP (fun t => t.2 == fallText) ≤ 1) :
    (∀ b ∈ (restartTick true w).balls,
        b.is_in_bounds = true ∧ b.pos = b.restartPos ∧ b.linvel = 0 ∧ b.angvel = 0) ∧
    (restartTick true w).texts.countP (fun t => t.2 == fallText) = 0 ∧
    (∀ t ∈ w.texts, ¬ t.2 = fallText → t ∈ (restartTick true w).texts) ∧
    (restartTick true (restartTick true w)).balls = (restartTick true w).balls ∧
    (restartTick true (restartTick true w)).texts = (restartTick true w).texts ∧
    (restartTick true (restartTick true w)).sounds = (restartTick true w).sounds + 1 := by
  refine ⟨?_, ?_, ?_, ?_, ?_, ?_⟩
  · intro b hb
    simp only [restartTick, if_true, List.mem_map] at hb
    obtain ⟨a, _, rfl⟩ := hb
    exact ⟨rfl, rfl, rfl, rfl⟩
  · simpa [restartTick] using despawnFirstFall_countP w.texts hids hcount
  · intro t ht hnf
    simpa [restartTick] using despawnFirstFall_keeps_nonfall w.texts hids t ht hnf
  · have hreset : resetBall ∘ resetBall = resetBall := funext fun b => rfl
    simp [restartTick, List.map_map, hreset]
  · simp only [restartTick, if_true]
    exact despawnFirstFall_of_no_fall _ (despawnFirstFall_countP w.texts hids hcount)
  · simp [restartTick]

/-- C5 witness: one fallen ball, a win banner and a fall banner; after
`C5_restart_resets_and_idempotent` the fall banner count is zero. -/
theorem C5_restart_witness :
    ((([(1, "You Win!"), (2, "You Fall!\n")] : List (Nat × String)).map Prod.fst).Nodup) ∧
    (restartTick true
        ⟨[⟨false, (1, 2, 3), (4, 4, 4), (5, 5, 5), (9, 9, 9)⟩],
          [(1, "You Win!"), (2, "You Fall!\n")], 0⟩).texts.countP
      (fun t => t.2 == fallText) = 0 := by
  refine ⟨by decide, ?_⟩
  exact (C5_restart_resets_and_idempotent
    ⟨[⟨false, (1, 2, 3), (4, 4, 4), (5, 5, 5), (9, 9, 9)⟩],
      [(1, "You Win!"), (2, "You Fall!\n")], 0⟩ (by decide) (by decide)).2.1

/--
C9: a single restart press despawns at most one fall banner — exactly the
FIRST `Text` entity whose contents are "You Fall!\n" — and every later
banner, fall banners included, remains on screen after that press.
-/
theorem C9_restart_despawns_only_first_fall (w : World) (pre post : List (Nat × String))
    (ft : Nat × String) (hw : w.texts = pre ++ ft :: post)
    (hpre : ∀ t ∈ pre, ¬ t.2 = fallText) (hft : ft.2 = fallText)
    (hid : ∀ t ∈ pre ++ post, t.1 ≠ ft.1) :
    (restartTick true w).texts = pre ++ post ∧
    ∀ t ∈ post, t ∈ (restartTick true w).texts := by
  have hfind : ∀ pre' : List (Nat × String), (∀ t ∈ pre', ¬ t.2 = fallText) →
      (pre' ++ ft :: post).find? (fun t => t.2 == fallText) = some ft := by
    intro pre'
    induction pre' with
    | nil =>
      intro _
      exact List.find?_cons_of_pos _ (by simp [hft])
    | cons u pre' ih =>
      intro hp
      rw [List.cons_append, List.find?_cons_of_neg _ (by simp [hp u (List.mem_cons_self _ _)])]
      exact ih fun t ht => hp t (List.mem_cons_of_mem _ ht)
  have hmain : despawnFirstFall (pre ++ ft :: post) = pre ++ post := by
    unfold despawnFirstFall
    rw [hfind pre hpre]
    show despawnText ft.1 (pre ++ ft :: post) = pre ++ post
    unfold despawnText
    rw [List.filter_append]
    have hpreKeep : ∀ a ∈ pre, (decide (a.1 ≠ ft.1)) = true := by
      intro a ha
      simp only [decide_eq_true_eq]
      exact hid a (List.mem_append_left _ ha)
    have hpostKeep : ∀ a ∈ post, (decide (a.1 ≠ ft.1)) = true := by
      intro a ha
      simp only [decide_eq_true_eq]
      exact hid a (List.mem_append_right _ ha)
    rw [List.filter_eq_self.2 hpreKeep, List.filter_cons, if_neg (by simp),
      List.filter_eq_self.2 hpostKeep]
  refine ⟨by simpa [restartTick, hw] using hmain, ?_⟩
  intro t ht
  simp only [restartTick, if_true, hw, hmain]
  exact List.mem_append_right _ ht

/-- C9 witness: a win banner, then two fall banners; the press removes
only the first fall banner and the second one stays on screen. -/
theorem C9_restart_witness :
    (restartTick true
        ⟨[], [(1, "You Win!"), (2, "You Fall!\n"), (3, "You Fall!\n")], 0⟩).texts =
      [(1, "You Win!"), (3, "You Fall!\n")] ∧
    ((3 : Nat), ("You Fall!\n" : String)) ∈
      (restartTick true
        ⟨[], [(1, "You Win!"), (2, "You Fall!\n"), (3, "You Fall!\n")], 0⟩).texts := by
  have h := C9_restart_despawns_only_first_fall
    ⟨[], [(1, "You Win!"), (2, "You Fall!\n"), (3, "You Fall!\n")], 0⟩
    [(1, "You Win!")] [(3, "You Fall!\n")] (2, "You Fall!\n")
    rfl (by decide) (by decide) (by decide)
  exact ⟨h.1, h.2 _ (by decide)⟩

/-- C10 witness: two balls, one already carrying a collider; only the
bare ball (id 1) is targeted by the pass. -/
theorem C10_ball_physics_witness :
    (1 : Nat) ∈ ballInsertTargets [⟨1, 1, false⟩, ⟨2, 1, true⟩] ∧
    ∃ b, b ∈ [(⟨1, 1, false⟩ : BallPhys), ⟨2, 1, true⟩] ∧ b.id = 1 ∧ b.hasCollider = false := by
  refine ⟨by decide, ?_⟩
  exact C10_ball_physics_insert_once.1 [⟨1, 1, false⟩, ⟨2, 1, true⟩] 1 (by decide)

end CreativeBevy
